import Mathlib

/-!
Verification of the SincNet front-end geometry and signal flow
(`pyannote/audio/models/blocks/sincnet.py`).

The development is a shallow embedding of the source: integer lengths are
`Int` (Python `//` coincides with Euclidean division for the positive
divisors used here, which is what `/` on `Int` denotes in Lean), failures
are `Except`, real arithmetic is modelled exactly over `ℚ`, and the forward
transform is embedded generically over an abstract tensor type with
uninterpreted stage operations.
-/

/-- Error raised by the geometry calculator when an input is too short for
the stage stack (spec name: `InvalidGeometry`). -/
inductive GeometryError where
  | invalidGeometry
  deriving DecidableEq

/-- Error raised at construction (spec name: `UnsupportedSampleRate`; the
source raises `NotImplementedError` at the same place). -/
inductive SincNetError where
  | unsupportedSampleRate
  deriving DecidableEq

instance {ε α : Type} [DecidableEq ε] [DecidableEq α] : DecidableEq (Except ε α)
  | .ok a, .ok b => if h : a = b then isTrue (h ▸ rfl) else isFalse fun hc => h (Except.ok.inj hc)
  | .error a, .error b =>
    if h : a = b then isTrue (h ▸ rfl) else isFalse fun hc => h (Except.error.inj hc)
  | .ok _, .error _ => isFalse Except.noConfusion
  | .error _, .ok _ => isFalse Except.noConfusion

/-- The raw one-stage output-length formula,
`out = floor((in + 2*padding - dilation*(kernel_size-1) - 1) / stride) + 1`. -/
def conv1d_out_len (num_samples kernel_size stride padding dilation : Int) : Int :=
  (num_samples + 2 * padding - dilation * (kernel_size - 1) - 1) / stride + 1

/-- Modelled from the spec: `conv1d_num_frames` (imported by the source from
`pyannote.audio.utils.frame`, which is not part of this excerpt). Per spec
section 4.1 it applies the standard integer convolution output-length
formula and fails with `InvalidGeometry` if the computed length would be
less than or equal to 0. -/
def conv1d_num_frames (num_samples kernel_size stride padding dilation : Int) :
    Except GeometryError Int :=
  let out := conv1d_out_len num_samples kernel_size stride padding dilation
  if out ≤ 0 then .error .invalidGeometry else .ok out

/-- Modelled from the spec: `conv1d_receptive_field_size` (imported by the
source from `pyannote.audio.utils.frame`, not part of this excerpt). Per
spec section 4.1,
`in = (out - 1) * stride + dilation*(kernel_size-1) + 1 - 2*padding`. -/
def conv1d_receptive_field_size (num_frames kernel_size stride padding dilation : Int) : Int :=
  (num_frames - 1) * stride + dilation * (kernel_size - 1) + 1 - 2 * padding

/-- Python `zip` over the four per-stage parameter lists. -/
def zip4 {α β γ δ : Type} : List α → List β → List γ → List δ → List (α × β × γ × δ)
  | a :: as, b :: bs, c :: cs, d :: ds => (a, b, c, d) :: zip4 as bs cs ds
  | _, _, _, _ => []

/-- Python `zip` over three module lists. -/
def zip3 {α β γ : Type} : List α → List β → List γ → List (α × β × γ)
  | a :: as, b :: bs, c :: cs => (a, b, c) :: zip3 as bs cs
  | _, _, _ => []

/-- The reassignment loop of `SincNet.num_frames`: fold `conv1d_num_frames`
over the zipped stage parameters, propagating a raised `InvalidGeometry`. -/
def num_frames_loop : List (Int × Int × Int × Int) → Int → Except GeometryError Int
  | [], n => .ok n
  | (k, s, p, d) :: rest, n =>
    match conv1d_num_frames n k s p d with
    | .error e => .error e
    | .ok v => num_frames_loop rest v

/-- The reassignment loop of `SincNet.receptive_field_size`. -/
def receptive_field_loop : List (Int × Int × Int × Int) → Int → Int
  | [], out => out
  | (k, s, p, d) :: rest, out =>
    receptive_field_loop rest (conv1d_receptive_field_size out k s p d)

/-- The same fold as `num_frames_loop`, without the too-short check. -/
def num_frames_loop_pure : List (Int × Int × Int × Int) → Int → Int
  | [], n => n
  | (k, s, p, d) :: rest, n => num_frames_loop_pure rest (conv1d_out_len n k s p d)

/-- The sequence of computed lengths after each stage of the fold. -/
def stage_vals : List (Int × Int × Int × Int) → Int → List Int
  | [], _ => []
  | (k, s, p, d) :: rest, n =>
    conv1d_out_len n k s p d :: stage_vals rest (conv1d_out_len n k s p d)

/-- The fixed-topology SincNet front-end: only the construction parameters
are geometry-relevant state. -/
structure SincNet where
  sample_rate : Int
  stride : Int
  deriving DecidableEq

/-- `SincNet.__init__`: rejects every sample rate other than 16000 before
anything else is set up. -/
def SincNet.init (sample_rate : Int) (stride : Int) : Except SincNetError SincNet :=
  if sample_rate ≠ 16000 then .error .unsupportedSampleRate
  else .ok { sample_rate := sample_rate, stride := stride }

/-- `SincNet.num_frames`: folds the per-stage output-length computation over
kernel sizes `[251, 3, 5, 3, 5, 3]`, strides `[stride, 3, 1, 3, 1, 3]`,
zero padding and unit dilation, exactly as the source. -/
def SincNet.num_frames (m : SincNet) (num_samples : Int) : Except GeometryError Int :=
  num_frames_loop
    (zip4 [251, 3, 5, 3, 5, 3] [m.stride, 3, 1, 3, 1, 3]
      [0, 0, 0, 0, 0, 0] [1, 1, 1, 1, 1, 1])
    num_samples

/-- `SincNet.receptive_field_size`: folds the inverse formula over the same
stage parameters in reversed order, exactly as the source. -/
def SincNet.receptive_field_size (m : SincNet) (num_frames : Int) : Int :=
  receptive_field_loop
    (zip4 [251, 3, 5, 3, 5, 3] [m.stride, 3, 1, 3, 1, 3]
      [0, 0, 0, 0, 0, 0] [1, 1, 1, 1, 1, 1]).reverse
    num_frames

/-- The computed length after each of the six stages of `num_frames`. -/
def SincNet.stage_lengths (m : SincNet) (num_samples : Int) : List Int :=
  stage_vals
    (zip4 [251, 3, 5, 3, 5, 3] [m.stride, 3, 1, 3, 1, 3]
      [0, 0, 0, 0, 0, 0] [1, 1, 1, 1, 1, 1])
    num_samples

/-- Modelled from the spec: `SlidingWindow` (imported by the source from
`pyannote.core`, not part of this excerpt) is a plain record of start time,
per-frame duration and per-frame step. -/
structure SlidingWindow where
  start : ℚ
  duration : ℚ
  step : ℚ
  deriving DecidableEq

/-- `SincNet.receptive_field`: the sliding-window descriptor built from the
receptive-field sizes at one and two output frames. -/
def SincNet.receptive_field (m : SincNet) : SlidingWindow :=
  let duration : ℚ := (m.receptive_field_size 1 : ℚ) / (m.sample_rate : ℚ)
  let step : ℚ :=
    ((m.receptive_field_size 2 : ℚ) - (m.receptive_field_size 1 : ℚ)) / (m.sample_rate : ℚ)
  { start := 0, duration := duration, step := step }

/-- The stage operations consumed by `SincNet.forward`, over an abstract
tensor type: the waveform normalization, the three convolution modules (the
filterbank encoder followed by two plain convolutions), the three pooling
modules, the three normalization modules, elementwise absolute value, and
the leaky-rectifying nonlinearity. Their numerics are opaque; only the
wiring of `forward` is modelled. -/
structure ForwardOps (T : Type) where
  wav_norm1d : T → T
  conv1d : List (T → T)
  pool1d : List (T → T)
  norm1d : List (T → T)
  abs : T → T
  leaky_relu : T → T

/-- `SincNet.forward`: normalize the waveform, then for each enumerated
(conv, pool, norm) triple apply the convolution, rectify by absolute value
when (and only when) the stage index is 0, then pool, normalize and apply
the leaky nonlinearity, exactly as the source loop. -/
def SincNet.forward {T : Type} (ops : ForwardOps T) (waveforms : T) : T :=
  let outputs := ops.wav_norm1d waveforms
  ((zip3 ops.conv1d ops.pool1d ops.norm1d).enum).foldl
    (fun outputs cx =>
      let c := cx.1
      let conv1d := cx.2.1
      let pool1d := cx.2.2.1
      let norm1d := cx.2.2.2
      let outputs := conv1d outputs
      let outputs := if c == 0 then ops.abs outputs else outputs
      ops.leaky_relu (norm1d (pool1d outputs)))
    outputs

/-- The six-stage forward fold exactly as the claims state it: for each
stage in order,
`out = floor((in + 2*padding - dilation*(kernel_size-1) - 1) / stride) + 1`
with kernels `[251,3,5,3,5,3]`, strides `[stride0,3,1,3,1,3]`, padding 0,
dilation 1. -/
def spec_forward_fold (stride0 n : Int) : Int :=
  let a0 := (n + 2 * 0 - 1 * (251 - 1) - 1) / stride0 + 1
  let a1 := (a0 + 2 * 0 - 1 * (3 - 1) - 1) / 3 + 1
  let a2 := (a1 + 2 * 0 - 1 * (5 - 1) - 1) / 1 + 1
  let a3 := (a2 + 2 * 0 - 1 * (3 - 1) - 1) / 3 + 1
  let a4 := (a3 + 2 * 0 - 1 * (5 - 1) - 1) / 1 + 1
  (a4 + 2 * 0 - 1 * (3 - 1) - 1) / 3 + 1

/-- The six-stage backward fold exactly as the claims state it: over the
reversed stage order,
`in = (out - 1) * stride + dilation*(kernel_size-1) + 1 - 2*padding`. -/
def spec_backward_fold (stride0 m : Int) : Int :=
  let b5 := (m - 1) * 3 + 1 * (3 - 1) + 1 - 2 * 0
  let b4 := (b5 - 1) * 1 + 1 * (5 - 1) + 1 - 2 * 0
  let b3 := (b4 - 1) * 3 + 1 * (3 - 1) + 1 - 2 * 0
  let b2 := (b3 - 1) * 1 + 1 * (5 - 1) + 1 - 2 * 0
  let b1 := (b2 - 1) * 3 + 1 * (3 - 1) + 1 - 2 * 0
  (b1 - 1) * stride0 + 1 * (251 - 1) + 1 - 2 * 0

/-- The manual fold of spec testable property 4:
`out = floor((in - kernel_size)/stride) + 1` over kernels `[251,3,5,3,5,3]`
and strides `[1,3,1,3,1,3]`, starting from 16000. -/
def c9_manual_fold : Int :=
  let a0 := (16000 - 251) / 1 + 1
  let a1 := (a0 - 3) / 3 + 1
  let a2 := (a1 - 5) / 1 + 1
  let a3 := (a2 - 3) / 3 + 1
  let a4 := (a3 - 5) / 1 + 1
  (a4 - 3) / 3 + 1

theorem num_frames_loop_ok_eq (l : List (Int × Int × Int × Int)) (n v : Int)
    (h : num_frames_loop l n = .ok v) : v = num_frames_loop_pure l n := by
  induction l generalizing n with
  | nil =>
    simp [num_frames_loop] at h
    simp [num_frames_loop_pure, h]
  | cons st rest ih =>
    obtain ⟨k, s, p, d⟩ := st
    by_cases hc : conv1d_out_len n k s p d ≤ 0
    · simp [num_frames_loop, conv1d_num_frames, hc] at h
    · simp [num_frames_loop, conv1d_num_frames, hc] at h
      simpa [num_frames_loop_pure] using ih _ h

theorem num_frames_loop_err_iff (l : List (Int × Int × Int × Int)) (n : Int) :
    num_frames_loop l n = .error .invalidGeometry ↔ ∃ x ∈ stage_vals l n, x ≤ 0 := by
  induction l generalizing n with
  | nil => simp [num_frames_loop, stage_vals]
  | cons st rest ih =>
    obtain ⟨k, s, p, d⟩ := st
    by_cases hc : conv1d_out_len n k s p d ≤ 0
    · simp [num_frames_loop, conv1d_num_frames, hc, stage_vals]
    · simp [num_frames_loop, conv1d_num_frames, hc, stage_vals]
      exact ih _

theorem num_frames_loop_ok_of_pos (l : List (Int × Int × Int × Int)) (n : Int)
    (h : ∀ x ∈ stage_vals l n, 0 < x) :
    num_frames_loop l n = .ok (num_frames_loop_pure l n) := by
  induction l generalizing n with
  | nil => simp [num_frames_loop, num_frames_loop_pure]
  | cons st rest ih =>
    obtain ⟨k, s, p, d⟩ := st
    simp [stage_vals] at h
    have hc : ¬ conv1d_out_len n k s p d ≤ 0 := by
      have := h.1
      omega
    simp [num_frames_loop, conv1d_num_frames, hc, num_frames_loop_pure]
    exact ih _ h.2

theorem num_frames_loop_ok_pos (l : List (Int × Int × Int × Int)) (hl : l ≠ [])
    (n v : Int) (h : num_frames_loop l n = .ok v) : 0 < v := by
  induction l generalizing n with
  | nil => exact absurd rfl hl
  | cons st rest ih =>
    obtain ⟨k, s, p, d⟩ := st
    by_cases hc : conv1d_out_len n k s p d ≤ 0
    · simp [num_frames_loop, conv1d_num_frames, hc] at h
    · cases rest with
      | nil =>
        simp [num_frames_loop, conv1d_num_frames, hc] at h
        omega
      | cons st2 rest2 =>
        simp [num_frames_loop, conv1d_num_frames, hc] at h
        exact ih (by simp) _ h

theorem conv1d_out_len_mono (k p d : Int) {s a b : Int} (hs : 0 < s) (hab : a ≤ b) :
    conv1d_out_len a k s p d ≤ conv1d_out_len b k s p d := by
  unfold conv1d_out_len
  exact add_le_add_right
    (Int.ediv_le_ediv hs (show a + 2*p - d*(k-1) - 1 ≤ b + 2*p - d*(k-1) - 1 by omega)) 1

theorem num_frames_loop_pure_mono (l : List (Int × Int × Int × Int))
    (hstr : ∀ k s p d, (k, s, p, d) ∈ l → 0 < s) {a b : Int} (hab : a ≤ b) :
    num_frames_loop_pure l a ≤ num_frames_loop_pure l b := by
  induction l generalizing a b with
  | nil => simpa [num_frames_loop_pure] using hab
  | cons st rest ih =>
    obtain ⟨k, s, p, d⟩ := st
    simp only [num_frames_loop_pure]
    exact ih (fun k' s' p' d' h => hstr k' s' p' d' (List.mem_cons_of_mem _ h))
      (conv1d_out_len_mono k p d (hstr k s p d (List.mem_cons_self _ _)) hab)

theorem receptive_field_size_one (m : SincNet) :
    m.receptive_field_size 1 = 74 * m.stride + 251 := by
  simp [SincNet.receptive_field_size, receptive_field_loop, zip4,
    conv1d_receptive_field_size]
  ring

theorem last_stage_nonpos {v0 : Int} (h : v0 ≤ 74) :
    conv1d_out_len
      (conv1d_out_len (conv1d_out_len (conv1d_out_len (conv1d_out_len v0 3 3 0 1) 5 1 0 1)
        3 3 0 1) 5 1 0 1) 3 3 0 1 ≤ 0 := by
  simp only [conv1d_out_len]
  omega

/-- C1: for every input sample count, whenever `num_frames` returns a frame
count it is exactly the fold, over the six stages in order (kernels
`[251,3,5,3,5,3]`, strides `[stride,3,1,3,1,3]`, padding 0, dilation 1), of
`out = floor((in + 2*padding - dilation*(kernel_size-1) - 1) / stride) + 1`. -/
theorem claim_C1 (m : SincNet) (n v : Int) (h : m.num_frames n = .ok v) :
    v = spec_forward_fold m.stride n := by
  have hv := num_frames_loop_ok_eq _ _ _ h
  rw [hv]
  simp [num_frames_loop_pure, zip4, conv1d_out_len, spec_forward_fold]

/-- Witness for C1 at the default construction, 16000 samples, 581 frames. -/
theorem claim_C1_witness : (581 : Int) = spec_forward_fold 1 16000 :=
  claim_C1 (SincNet.mk 16000 1) 16000 581 (by decide)

/-- C2: for every output frame count, `receptive_field_size` is exactly the
fold, over the six stages in reversed order, of
`in = (out - 1) * stride + dilation*(kernel_size-1) + 1 - 2*padding`. -/
theorem claim_C2 (m : SincNet) (f : Int) (h : 1 ≤ f) :
    m.receptive_field_size f = spec_backward_fold m.stride f := by
  simp [SincNet.receptive_field_size, receptive_field_loop, zip4,
    conv1d_receptive_field_size, spec_backward_fold]

/-- Witness for C2 at the default construction and one output frame. -/
theorem claim_C2_witness :
    (SincNet.mk 16000 1).receptive_field_size 1 = spec_backward_fold 1 1 :=
  claim_C2 (SincNet.mk 16000 1) 1 (by decide)

/-- C3: the sliding-window descriptor satisfies exactly
`duration = receptive_field_size(1) / sample_rate`,
`step = (receptive_field_size(2) - receptive_field_size(1)) / sample_rate`
and `start = 0`, for any constructed instance. -/
theorem claim_C3 (m : SincNet) :
    m.receptive_field.duration = (m.receptive_field_size 1 : ℚ) / (m.sample_rate : ℚ) ∧
    m.receptive_field.step =
      ((m.receptive_field_size 2 : ℚ) - (m.receptive_field_size 1 : ℚ)) / (m.sample_rate : ℚ) ∧
    m.receptive_field.start = 0 :=
  ⟨rfl, rfl, rfl⟩

/-- C4: `num_frames` fails with `InvalidGeometry` exactly when the computed
length at one of the six stages is nonpositive, and a returned frame count
is always positive. -/
theorem claim_C4 (m : SincNet) (n : Int) :
    (m.num_frames n = .error .invalidGeometry ↔ ∃ x ∈ m.stage_lengths n, x ≤ 0) ∧
    ∀ v, m.num_frames n = .ok v → 0 < v := by
  constructor
  · exact num_frames_loop_err_iff _ _
  · intro v h
    exact num_frames_loop_ok_pos _ (by simp [zip4]) _ _ h

/-- Witness for C4: a 100-sample input fails with `InvalidGeometry`, and the
581 frames returned at 16000 samples are positive. -/
theorem claim_C4_witness :
    (SincNet.mk 16000 1).num_frames 100 = .error .invalidGeometry ∧ (0 : Int) < 581 :=
  ⟨(claim_C4 (SincNet.mk 16000 1) 100).1.mpr (by decide),
   (claim_C4 (SincNet.mk 16000 1) 16000).2 581 (by decide)⟩

/-- C5: below the minimal receptive field `receptive_field_size 1`,
`num_frames` either returns 0 frames or raises `InvalidGeometry` (with the
spec-modelled geometry calculator it always raises). -/
theorem claim_C5 (m : SincNet) (n : Int) (hs : 0 < m.stride)
    (h : n < m.receptive_field_size 1) :
    m.num_frames n = .ok 0 ∨ m.num_frames n = .error .invalidGeometry := by
  right
  have hrf := receptive_field_size_one m
  have hv0 : conv1d_out_len n 251 m.stride 0 1 ≤ 74 := by
    have h1 : (n + 2*0 - 1*(251-1) - 1) / m.stride ≤ (74 * m.stride - 1) / m.stride :=
      Int.ediv_le_ediv hs (by omega)
    have h2 : (74 * m.stride - 1) / m.stride = 73 := by
      have e : 74 * m.stride - 1 = (m.stride - 1) + m.stride * 73 := by ring
      rw [e, Int.add_mul_ediv_left _ 73 (by omega : m.stride ≠ 0),
        Int.ediv_eq_zero_of_lt (by omega) (by omega)]
      norm_num
    rw [h2] at h1
    unfold conv1d_out_len
    linarith
  refine (num_frames_loop_err_iff _ _).mpr ⟨_, ?_, last_stage_nonpos hv0⟩
  simp [stage_vals, zip4]

/-- Witness for C5: 324 samples are below the default minimal receptive
field of 325 samples. -/
theorem claim_C5_witness :
    (SincNet.mk 16000 1).num_frames 324 = .ok 0 ∨
    (SincNet.mk 16000 1).num_frames 324 = .error .invalidGeometry :=
  claim_C5 (SincNet.mk 16000 1) 324 (by decide) (by decide)

/-- C6: construction raises `UnsupportedSampleRate` exactly for sample rates
other than 16000, and succeeds at 16000. -/
theorem claim_C6 (sample_rate stride : Int) :
    (SincNet.init sample_rate stride = .error .unsupportedSampleRate ↔ sample_rate ≠ 16000) ∧
    SincNet.init 16000 stride = .ok (SincNet.mk 16000 stride) := by
  refine ⟨?_, by simp [SincNet.init]⟩
  by_cases h : sample_rate = 16000 <;> simp [SincNet.init, h]

/-- C7: the forward transform applies absolute-value rectification to stage
0's convolution output only, and every stage is then pooled, normalized and
passed through the leaky nonlinearity, in that order. Stated for arbitrary
stage operations over an arbitrary tensor type, so it is a fact about the
wiring of the loop alone. -/
theorem claim_C7 {T : Type} (wn f0 f1 f2 p0 p1 p2 g0 g1 g2 ab lr : T → T) (x : T) :
    SincNet.forward ⟨wn, [f0, f1, f2], [p0, p1, p2], [g0, g1, g2], ab, lr⟩ x =
      lr (g2 (p2 (f2 (lr (g1 (p1 (f1 (lr (g0 (p0 (ab (f0 (wn x))))))))))))) := rfl

/-- C9: at the default construction, `num_frames 16000` is exactly the
manually folded six-stage value, the integer 581. -/
theorem claim_C9 :
    (SincNet.mk 16000 1).num_frames 16000 = .ok c9_manual_fold ∧ c9_manual_fold = 581 := by
  decide

/-- C8: the returned frame count is non-decreasing in the input sample
count, for any instance with a positive stride. -/
theorem claim_C8 (m : SincNet) (hs : 0 < m.stride) (n n' v v' : Int) (hnn : n ≤ n')
    (h : m.num_frames n = .ok v) (h' : m.num_frames n' = .ok v') : v ≤ v' := by
  have hv := num_frames_loop_ok_eq _ _ _ h
  have hv' := num_frames_loop_ok_eq _ _ _ h'
  rw [hv, hv']
  refine num_frames_loop_pure_mono _ ?_ hnn
  intro k s p d hmem
  simp [zip4] at hmem
  rcases hmem with h1 | h1 | h1 | h1 | h1 | h1 <;> omega

/-- Witness for C8 at 16000 and 16001 samples, both yielding 581 frames. -/
theorem claim_C8_witness : (581 : Int) ≤ 581 :=
  claim_C8 (SincNet.mk 16000 1) (by decide) 16000 16001 581 581 (by decide)
    (by decide) (by decide)

/-- C10: with the default stride 1, feeding exactly the receptive field of
`m ≥ 1` frames through `num_frames` recovers `m`. -/
theorem claim_C10 (m : Int) (h : 1 ≤ m) :
    (SincNet.mk 16000 1).num_frames ((SincNet.mk 16000 1).receptive_field_size m) = .ok m := by
  have hrf : (SincNet.mk 16000 1).receptive_field_size m = 27 * m + 298 := by
    simp [SincNet.receptive_field_size, receptive_field_loop, zip4,
      conv1d_receptive_field_size]
    ring
  rw [hrf]
  have hpos : ∀ x ∈ stage_vals
      (zip4 [251, 3, 5, 3, 5, 3] [(1 : Int), 3, 1, 3, 1, 3]
        [0, 0, 0, 0, 0, 0] [1, 1, 1, 1, 1, 1]) (27 * m + 298), 0 < x := by
    simp [stage_vals, zip4, conv1d_out_len]
    omega
  have hok := num_frames_loop_ok_of_pos _ _ hpos
  rw [show (SincNet.mk 16000 1).num_frames (27 * m + 298) =
    num_frames_loop
      (zip4 [251, 3, 5, 3, 5, 3] [(1 : Int), 3, 1, 3, 1, 3]
        [0, 0, 0, 0, 0, 0] [1, 1, 1, 1, 1, 1]) (27 * m + 298) from rfl, hok]
  congr 1
  simp [num_frames_loop_pure, zip4, conv1d_out_len]
  omega

/-- Witness for C10 at two output frames. -/
theorem claim_C10_witness :
    (SincNet.mk 16000 1).num_frames ((SincNet.mk 16000 1).receptive_field_size 2) = .ok 2 :=
  claim_C10 2 (by decide)
